import Mathlib

/-!
Verification of the NARAAPI privacy-processing pipeline (src/handlers.py).

The four stages (`query_archives`, `apply_filters`, `redact_names`,
`add_differential_privacy`) and the orchestrator
(`combined_query_with_privacy`) are shallowly embedded below.  JSON values
are modelled by the inductive type `Value`; Python dicts are association
lists without duplicate keys; machine floats are modelled by `ℚ`
(the claims under study do not depend on IEEE rounding); the Laplace
sampler `np.random.laplace(0, scale)` is modelled by an oracle
`draws : ℕ → ℚ` giving the realized noise of the i-th call of one
stage invocation; the Redis archive store and the timestamp-to-date
formatting of `datetime` are abstracted into an `Env` record; the text of
Python exception messages is abstracted into a fixed string.
-/

/-- A JSON-ish Python value: the payloads flowing through the pipeline.
`float` carries a rational (exact model of the float's value); `obj` is a
Python dict modelled as an association list (no duplicate keys). -/
inductive Value where
  | str (s : String)
  | int (n : Int)
  | float (q : ℚ)
  | bool (b : Bool)
  | null
  | list (xs : List Value)
  | obj (kvs : List (String × Value))

/-- A record (Python dict with string keys). -/
abbrev Rec := List (String × Value)

/-- Python `d[k]` / `k in d` lookup on an association list (first match). -/
def pyLookup : Rec → String → Option Value
  | [], _ => none
  | (k, v) :: t, key => if k = key then some v else pyLookup t key

/-- Python `d.get(k)`: a missing key yields `None`. -/
def pyGet (item : Rec) (k : String) : Value :=
  (pyLookup item k).getD Value.null

/-- The numeric value of `int` / `float` / `bool` (Python `bool` is a
subclass of `int`: `True == 1`, `False == 0`); `none` for non-numeric. -/
def numVal : Value → Option ℚ
  | .int n => some (n : ℚ)
  | .float q => some q
  | .bool b => some (if b then 1 else 0)
  | _ => none

mutual
/-- Number of constructors of a value (a computable size, used to supply
sufficient fuel to the equality worker `pyEqF`). -/
def vSize : Value → ℕ
  | .str _ => 1
  | .int _ => 1
  | .float _ => 1
  | .bool _ => 1
  | .null => 1
  | .list xs => 1 + vSizeL xs
  | .obj kvs => 1 + vSizeR kvs

/-- Size of a list of values. -/
def vSizeL : List Value → ℕ
  | [] => 0
  | x :: t => 1 + vSize x + vSizeL t

/-- Size of a record. -/
def vSizeR : Rec → ℕ
  | [] => 0
  | (_, v) :: t => 1 + vSize v + vSizeR t
end

mutual
/-- Fuel-indexed worker for Python `==` (see `pyEq`).  Each recursive call
consumes one unit of fuel while the combined `vSize` of the compared
values shrinks by at least one, so the fuel supplied by `pyEq` never runs
out and the `0` branch is unreachable (the fuel only forces structural
termination). -/
def pyEqF : ℕ → Value → Value → Bool
  | 0, _, _ => false
  | fuel + 1, a, b =>
    match numVal a, numVal b with
    | some x, some y => decide (x = y)
    | _, _ =>
      match a, b with
      | .str s, .str t => s = t
      | .null, .null => true
      | .list xs, .list ys => pyEqListF fuel xs ys
      | .obj xs, .obj ys => pyEqIncF fuel xs ys && pyEqIncF fuel ys xs
      | _, _ => false

/-- Element-wise Python `==` of two lists (worker). -/
def pyEqListF : ℕ → List Value → List Value → Bool
  | _, [], [] => true
  | fuel + 1, x :: xs, y :: ys => pyEqF fuel x y && pyEqListF fuel xs ys
  | _, _, _ => false

/-- One inclusion of Python dict equality: every entry of `xs` has a
`pyEqF`-equal partner in `ys` (worker). -/
def pyEqIncF : ℕ → Rec → Rec → Bool
  | _, [], _ => true
  | fuel + 1, (k, v) :: t, ys =>
    match pyLookup ys k with
    | some w => pyEqF fuel v w && pyEqIncF fuel t ys
    | none => false
  | 0, _ :: _, _ => false
end

/-- Python `==` on values: cross-type numeric equality (`1 == 1.0 == True`),
structural equality on strings and `None`, element-wise equality on lists,
key-wise (order-insensitive) equality on dicts, `False` across
incompatible types (Python `==` never raises). -/
def pyEq (a b : Value) : Bool :=
  pyEqF (vSize a + vSize b) a b

/-- Python `<` on values: numeric comparison across `int`/`float`/`bool`,
lexicographic comparison of strings; `none` models the `TypeError` raised
on other combinations (comparisons of containers are also modelled as type
errors; the claims never compare containers). -/
def pyLt (a b : Value) : Option Bool :=
  match numVal a, numVal b with
  | some x, some y => some (decide (x < y))
  | _, _ =>
    match a, b with
    | .str s, .str t => some (decide (s < t))
    | _, _ => none

/-- Python `>` on values, with the same domain as `pyLt`. -/
def pyGt (a b : Value) : Option Bool :=
  match numVal a, numVal b with
  | some x, some y => some (decide (y < x))
  | _, _ =>
    match a, b with
    | .str s, .str t => some (decide (t < s))
    | _, _ => none

/-- Python `str(value)`.  Scalars are rendered as Python renders them;
the textual form of floats and of containers is abstracted (no claim
applies a regex to a float- or container-valued field). -/
def pyStr : Value → String
  | .str s => s
  | .int n => toString n
  | .bool b => if b then "True" else "False"
  | .null => "None"
  | .float q => toString q
  | .list _ => "[...]"
  | .obj _ => "{...}"

example : pyEq (.int 1) (.float 1) = true := by decide
example : pyEq (.bool true) (.int 1) = true := by decide
example : pyEq .null .null = true := by decide
example : pyEq (.int 1) (.str "1") = false := by decide
example : pyEq (.obj [("a", .int 1), ("b", .null)])
    (.obj [("b", .null), ("a", .float 1)]) = true := by decide
example : pyEq (.list [.int 1]) (.list [.bool true]) = true := by decide
example : pyLt (.str "a") (.int 3) = none := by decide
example : pyLt (.int 2) (.float (5/2)) = some true := by norm_num [pyLt, numVal]

/-! ### Regular expressions (`re.match` in the filter stage) -/

/-- Abstract syntax of the (already compiled) regular expression carried by
a `regex` field rule.  Pattern-string parsing (`re.compile`) is abstracted:
a rule carries the pattern's AST.  `cls p` is a character class given by
its membership predicate. -/
inductive Regex where
  | emp
  | eps
  | cls (p : Char → Bool)
  | cat (a b : Regex)
  | alt (a b : Regex)
  | star (a : Regex)

/-- Whether the language of `r` contains the empty string. -/
def nullable : Regex → Bool
  | .emp => false
  | .eps => true
  | .cls _ => false
  | .cat a b => nullable a && nullable b
  | .alt a b => nullable a || nullable b
  | .star _ => true

/-- Brzozowski derivative of `r` by the character `c`. -/
def rderiv : Regex → Char → Regex
  | .emp, _ => .emp
  | .eps, _ => .emp
  | .cls p, c => if p c then .eps else .emp
  | .cat a b, c =>
      if nullable a then .alt (.cat (rderiv a c) b) (rderiv b c)
      else .cat (rderiv a c) b
  | .alt a b, c => .alt (rderiv a c) (rderiv b c)
  | .star a, c => .cat (rderiv a c) (.star a)

/-- Whole-string membership: `accept r l` decides whether `l` belongs to
the language of `r`. -/
def accept : Regex → List Char → Bool
  | r, [] => nullable r
  | r, c :: t => accept (rderiv r c) t

/-- Truthiness of Python `re.match(r, s)` on the character list of `s`:
the match is anchored at position 0 and succeeds as soon as some initial
segment of the input belongs to the language of `r` (the whole input need
not be consumed). -/
def reMatch : Regex → List Char → Bool
  | r, [] => nullable r
  | r, c :: t => nullable r || reMatch (rderiv r c) t

/-- `re.match` on a string value. -/
def reMatchStr (r : Regex) (s : String) : Bool := reMatch r s.toList

/-! ### The name-pattern scan of the redaction stage -/

/-- `[A-Z]`. -/
def isUpperAZ (c : Char) : Bool := 'A' ≤ c && c ≤ 'Z'

/-- `[a-z]`. -/
def isLowerAZ (c : Char) : Bool := 'a' ≤ c && c ≤ 'z'

/-- A word character, as tested by `\b` in the name pattern, restricted to
ASCII (`[A-Za-z0-9_]`; non-ASCII word characters are not modelled — the
claims only exercise ASCII text). -/
def isWordChar (c : Char) : Bool := c.isAlphanum || c = '_'

/-- Length of the maximal `[a-z]+` run at the head of the list. -/
def lowerRun : List Char → ℕ
  | c :: t => if isLowerAZ c then lowerRun t + 1 else 0
  | [] => 0

/-- One attempt of Python's regex engine to match the compiled name
pattern `\b[A-Z][a-z]+ [A-Z][a-z]+\b` at the current position, given
whether the character just before the position (if any) is a word
character.  Returns the length of the match, or `none` if the attempt
fails.  For this pattern the backtracking search is deterministic: a
shorter-than-maximal `[a-z]+` run is followed by a lowercase letter, on
which neither the literal space nor `\b` after the run can succeed, so a
single maximal-munch pass decides the attempt. -/
def nameTry (prevWord : Bool) (l : List Char) : Option ℕ :=
  if prevWord then none
  else
    match l with
    | [] => none
    | c :: t =>
      if isUpperAZ c then
        let r1 := lowerRun t
        if r1 = 0 then none
        else
          match List.drop r1 t with
          | ' ' :: (d :: u2) =>
            if isUpperAZ d then
              let r2 := lowerRun u2
              if r2 = 0 then none
              else
                match List.drop r2 u2 with
                | [] => some (r1 + r2 + 3)
                | e :: _ => if isWordChar e then none else some (r1 + r2 + 3)
            else none
          | _ => none
      else none

/-- Left-to-right, non-overlapping substitution of every match of the name
pattern by `[REDACTED]` (the semantics of `name_pattern.sub`).  Scanning
resumes right after each match; the flag records whether the previous
character of the *original* string is a word character (after a match it
is a lowercase letter, hence `true`).  The fuel argument only forces
structural termination: `nameSub` supplies the input length, and every
step consumes at least one character, so the fuel never runs out. -/
def nameSubAux : ℕ → Bool → List Char → List Char
  | _, _, [] => []
  | 0, _, l => l
  | fuel + 1, prevWord, c :: t =>
    match nameTry prevWord (c :: t) with
    | some n => "[REDACTED]".toList ++ nameSubAux fuel true (List.drop (n - 1) t)
    | none => c :: nameSubAux fuel (isWordChar c) t

/-- `name_pattern.sub('[REDACTED]', s)` where
`name_pattern = re.compile(r'\b[A-Z][a-z]+ [A-Z][a-z]+\b')`. -/
def nameSub (s : String) : String :=
  String.mk (nameSubAux s.toList.length false s.toList)

example : nameSub "Met John Smith yesterday." = "[REDACTED] Smith yesterday." := by decide
example : nameSub "x John Smith" = "x [REDACTED]" := by decide
example : nameSub "aJohn Smith" = "aJohn Smith" := by decide
example : nameSub "John SmithX" = "John SmithX" := by decide
example : nameSub "no names here" = "no names here" := by decide

/-! ### Rounding (the privacy stage) -/

/-- Python `int(round(x))` on a float `x`: round half to even (`f % 2 = 0`
decides evenness of the floor), then `int` (a no-op on the already
integral result of `round`). -/
def pyRound (x : ℚ) : ℤ :=
  let f := x.floor
  if x - f < 1/2 then f
  else if (1 : ℚ)/2 < x - f then f + 1
  else if f % 2 = 0 then f else f + 1

example : pyRound (5/2) = 2 := by with_unfolding_all rfl
example : pyRound (7/2) = 4 := by with_unfolding_all rfl
example : pyRound (-1/2) = 0 := by with_unfolding_all rfl

/-! ### Query stage (`query_archives`) -/

/-- The `time_range` parameter; `stop` models the source's key `'end'`
(`end` is a Lean keyword).  A missing key is `none` (the source then
applies `.get` defaults). -/
structure TimeRange where
  start : Option Int
  stop : Option Int

/-- The external collaborators of the query stage: the current clock
(`int(datetime.now().timestamp())`, used as the default of
`time_range['end']`), the `datetime`-based timestamp-to-`YYYY-MM-DD`
formatting, and the Redis archive store.  `store k = none` models
`redis_client.exists(k) == 0`; a stored entry `none` models a serialized
record on which `json.loads` raises `JSONDecodeError` (silently skipped),
and `some r` one that decodes to the record `r`. -/
structure Env where
  now : Int
  dateOf : Int → String
  store : String → Option (List (Option Rec))

/-- The request of `query_archives`; `none` fields model absent keys. -/
structure QueryInput where
  query_type : Option String
  time_range : TimeRange
  filters : Rec
  limit : Option Int
  offset : Option Int

/-- The partition keys enumerated by the `while current_time <= end_time`
loop: one key per started day from `start` to `stop` inclusive, stepping
86400 seconds. -/
def queryKeys (env : Env) (start stop : Int) : List String :=
  if stop < start then []
  else (List.range ((stop - start).toNat / 86400 + 1)).map
    (fun i => "archive:" ++ env.dateOf (start + 86400 * (i : Int)))

/-- The equality filter of the query stage:
`all(item.get(k) == v for k, v in filters.items())`. -/
def matchesFilters (filters : Rec) (item : Rec) : Bool :=
  filters.all (fun kv => pyEq (pyGet item kv.1) kv.2)

/-- Records contributed by one partition key: nothing if the key does not
exist, otherwise the decodable entries that pass the equality filter, in
stored order. -/
def fetchKey (env : Env) (filters : Rec) (k : String) : List Rec :=
  match env.store k with
  | none => []
  | some entries => (entries.filterMap id).filter (matchesFilters filters)

/-- The retained set built by the fetch-and-filter loop, before
pagination. -/
def retainedRecords (env : Env) (filters : Rec) (start stop : Int) : List Rec :=
  (queryKeys env start stop).flatMap (fetchKey env filters)

/-- Python list slicing `l[i:j]` (step 1): a negative index counts from
the end, then both bounds are clamped to `[0, len(l)]`. -/
def pySlice {α : Type} (l : List α) (i j : Int) : List α :=
  let n : Int := l.length
  let i2 := if i < 0 then max 0 (n + i) else min i n
  let j2 := if j < 0 then max 0 (n + j) else min j n
  (l.drop i2.toNat).take (j2 - i2).toNat

/-- `query_archives` (src/handlers.py:16).  In this typed embedding the
request fields already carry the right types, so the `except` branch
returning status 500 is unreachable and the stage always returns 200. -/
def query_archives (env : Env) (d : QueryInput) : Value × ℕ :=
  let query_type := d.query_type.getD "full"
  let start_time := d.time_range.start.getD 0
  let end_time := d.time_range.stop.getD env.now
  let limit := d.limit.getD 100
  let offset := d.offset.getD 0
  let results := retainedRecords env d.filters start_time end_time
  let paginated := pySlice results offset (offset + limit)
  let response :=
    if query_type = "count" then
      Value.obj [("count", .int results.length)]
    else if query_type = "summary" then
      Value.obj [("count", .int results.length),
        ("summary", .list (paginated.map (fun item =>
          Value.obj [("id", pyGet item "id"),
                     ("timestamp", pyGet item "timestamp")])))]
    else
      Value.obj [("count", .int results.length),
                 ("data", .list (paginated.map Value.obj))]
  (response, 200)

/-! ### Filter stage (`apply_filters`) -/

/-- A `range` sub-rule: optional inclusive `min` / `max` bounds. -/
structure RangeRule where
  min : Option Value
  max : Option Value

/-- The per-field rule object: optional `range`, `regex` and `in`
sub-rules (`mem` models the source key `'in'`, a Lean keyword). -/
structure Rules where
  range : Option RangeRule
  regex : Option Regex
  mem : Option (List Value)

/-- The `filters` object of the filter stage. -/
structure FilterSpec where
  include_fields : List String
  exclude_fields : List String
  field_rules : List (String × Rules)

/-- The request of `apply_filters`. -/
structure FilterInput where
  results : List Rec
  filters : FilterSpec

/-- Sequencing of the rule checks on one record: `some false` (the record
failed — the source's `break`) and `none` (a raised exception) stop the
evaluation, `some true` continues with the next check. -/
def andThen (x : Option Bool) (k : Unit → Option Bool) : Option Bool :=
  match x with
  | none => none
  | some false => some false
  | some true => k ()

/-- The `'min' in range_rule and field_value < range_rule['min']` test:
passes when no bound is configured or the comparison is cleanly `False`;
an ill-typed comparison raises (`none`). -/
def checkMin (fv : Value) (mno : Option Value) : Option Bool :=
  match mno with
  | none => some true
  | some mn =>
    match pyLt fv mn with
    | none => none
    | some b => some (!b)

/-- The `'max' in range_rule and field_value > range_rule['max']` test. -/
def checkMax (fv : Value) (mxo : Option Value) : Option Bool :=
  match mxo with
  | none => some true
  | some mx =>
    match pyGt fv mx with
    | none => none
    | some b => some (!b)

/-- The `range` sub-rule on one field value: fails when
`field_value < min` or `field_value > max` (each bound optional,
inclusive); the `min` comparison is evaluated first and short-circuits
the `max` comparison. -/
def checkRange (fv : Value) (rr : RangeRule) : Option Bool :=
  andThen (checkMin fv rr.min) (fun _ => checkMax fv rr.max)

/-- The `'regex' in rules and not re.match(...)` test. -/
def checkRegexRule (fv : Value) (ro : Option Regex) : Option Bool :=
  match ro with
  | none => some true
  | some re => some (reMatchStr re (pyStr fv))

/-- The `'in' in rules and field_value not in rules['in']` test
(membership uses Python `==`, which never raises). -/
def checkMem (fv : Value) (vso : Option (List Value)) : Option Bool :=
  match vso with
  | none => some true
  | some vs => some (vs.any (fun v => pyEq fv v))

/-- The three sub-rules of one field rule in source order (range, regex,
membership), conjunctively, with the first failing sub-rule stopping the
evaluation. -/
def checkRules (fv : Value) (r : Rules) : Option Bool :=
  andThen
    (match r.range with
     | none => some true
     | some rr => checkRange fv rr)
    (fun _ =>
      andThen (checkRegexRule fv r.regex)
        (fun _ => checkMem fv r.mem))

/-- The `field_rules` loop on one record: a ruled field absent from the
record fails the record (`break`); otherwise its sub-rules are checked.
`some true` = record passes, `some false` = record dropped, `none` = a
comparison raised. -/
def recordCheck (item : Rec) : List (String × Rules) → Option Bool
  | [] => some true
  | (f, r) :: t =>
    match pyLookup item f with
    | none => some false
    | some fv => andThen (checkRules fv r) (fun _ => recordCheck item t)

/-- The outer loop of `apply_filters`: keeps the passing records in order;
a raised comparison anywhere aborts the whole request (`none`). -/
def checkAll (frs : List (String × Rules)) : List Rec → Option (List Rec)
  | [] => some []
  | item :: t =>
    match recordCheck item frs with
    | none => none
    | some true => (checkAll frs t).map (item :: ·)
    | some false => checkAll frs t

/-- The abstracted message text of the `TypeError` raised by an ill-typed
rule comparison (only the fact that an `"error"` body is returned
matters). -/
def typeErrMsg : String := "TypeError"

/-- Field projection on a surviving record: a non-empty `include_fields`
keeps exactly the listed fields that exist (in list order; a duplicated
include field, which a Python dict would collapse, is assumed not to
occur); otherwise all fields except `exclude_fields` are kept. -/
def projectItem (spec : FilterSpec) (item : Rec) : Rec :=
  if spec.include_fields ≠ [] then
    spec.include_fields.filterMap (fun f => (pyLookup item f).map (fun v => (f, v)))
  else
    item.filter (fun kv => !spec.exclude_fields.contains kv.1)

/-- `apply_filters` (src/handlers.py:93). -/
def apply_filters (d : FilterInput) : Value × ℕ :=
  match checkAll d.filters.field_rules d.results with
  | none => (Value.obj [("error", .str typeErrMsg)], 500)
  | some kept =>
    let out := kept.map (projectItem d.filters)
    (Value.obj [("filtered_data", .list (out.map Value.obj)),
                ("count", .int out.length)], 200)

/-! ### Redaction stage (`redact_names`) -/

/-- The request of `redact_names`; `none` fields model absent keys, on
which the source's `.get` defaults apply. -/
structure RedactInput where
  results : List Rec
  fields_to_redact : Option (List String)
  redaction_character : Option String
  preserve_length : Option Bool

/-- Python `s * n` (the redaction character repeated). -/
def strRepeat (s : String) (n : ℕ) : String := String.join (List.replicate n s)

/-- `isinstance(value, str)`. -/
def Value.isStr : Value → Bool
  | .str _ => true
  | _ => false

/-- The carried string of a text value (only used under `isStr`). -/
def Value.strD : Value → String
  | .str s => s
  | _ => ""

/-- The per-field transformation of `redact_names`, mirroring the source's
`if`/`elif`/`else` chain. -/
def redactField (fields : List String) (rc : String) (pl : Bool)
    (k : String) (v : Value) : Value :=
  if fields.contains k && v.isStr then
    if pl then .str (strRepeat rc v.strD.length) else .str "[REDACTED]"
  else if v.isStr && !(fields.contains k) then
    .str (nameSub v.strD)
  else v

/-- `redact_names` (src/handlers.py:171).  Always returns 200 in this
typed embedding (the `except` branch is unreachable). -/
def redact_names (d : RedactInput) : Value × ℕ :=
  let fields := d.fields_to_redact.getD ["name", "full_name", "username"]
  let rc := d.redaction_character.getD "*"
  let pl := d.preserve_length.getD true
  let out := d.results.map (fun item =>
    item.map (fun kv => (kv.1, redactField fields rc pl kv.1 kv.2)))
  (Value.obj [("redacted_data", .list (out.map Value.obj)),
              ("count", .int out.length)], 200)

/-! ### Differential-privacy stage (`add_differential_privacy`) -/

/-- The `results` of the privacy stage: a list of records or a single
aggregate mapping (the `isinstance(results, list)` dispatch). -/
inductive DpResults where
  | records (rs : List Rec)
  | aggregate (m : Rec)

/-- The request of `add_differential_privacy`. -/
structure PrivacyInput where
  results : DpResults
  numeric_fields : Option (List String)
  epsilon : Option ℚ
  sensitivity : Option ℚ

/-- `isinstance(value, (int, float))`.  Python `bool` is a subclass of
`int`, so boolean values pass this check. -/
def isinstNum : Value → Bool
  | .int _ => true
  | .float _ => true
  | .bool _ => true
  | _ => false

/-- `isinstance(value, int)` (again satisfied by booleans). -/
def isinstInt : Value → Bool
  | .int _ => true
  | .bool _ => true
  | _ => false

/-- `noisy_value = value + noise`, then `int(round(noisy_value))` when the
original value is of an integral type. -/
def addNoise (v : Value) (noise : ℚ) : Value :=
  match numVal v with
  | some x => if isinstInt v then .int (pyRound (x + noise)) else .float (x + noise)
  | none => v

/-- The per-record noising loop.  `np.random.laplace(0, scale)` is
abstracted into the oracle `draws`: the argument `c` counts the sampler
calls already made in this stage invocation, and the next call returns
`draws c`.  Returns the noised record and the updated call count. -/
def dpRecord (draws : ℕ → ℚ) (nf : List String) : ℕ → Rec → Rec × ℕ
  | c, [] => ([], c)
  | c, (k, v) :: t =>
    if nf.contains k && isinstNum v then
      let rest := dpRecord draws nf (c + 1) t
      ((k, addNoise v (draws c)) :: rest.1, rest.2)
    else
      let rest := dpRecord draws nf c t
      ((k, v) :: rest.1, rest.2)

/-- The record-list branch of the privacy stage, threading the sampler
call count across records. -/
def dpRecords (draws : ℕ → ℚ) (nf : List String) : ℕ → List Rec → List Rec × ℕ
  | c, [] => ([], c)
  | c, item :: t =>
    let r := dpRecord draws nf c item
    let rest := dpRecords draws nf r.2 t
    (r.1 :: rest.1, rest.2)

/-- The `privacy_metadata` object appended to every successful result. -/
def privacyMeta (eps sens : ℚ) : Value :=
  Value.obj [("epsilon", .float eps), ("sensitivity", .float sens),
             ("mechanism", .str "Laplace")]

/-- `add_differential_privacy` (src/handlers.py:224). -/
def add_differential_privacy (draws : ℕ → ℚ) (d : PrivacyInput) : Value × ℕ :=
  let numeric_fields := d.numeric_fields.getD []
  let epsilon := d.epsilon.getD 1
  let sensitivity := d.sensitivity.getD 1
  if epsilon ≤ 0 then
    (Value.obj [("error", .str "Epsilon must be positive")], 400)
  else
    match d.results with
    | .records rs =>
      let noisy := (dpRecords draws numeric_fields 0 rs).1
      (Value.obj [("privacy_protected_data", .list (noisy.map Value.obj)),
                  ("count", .int noisy.length),
                  ("privacy_metadata", privacyMeta epsilon sensitivity)], 200)
    | .aggregate m =>
      let noisy := (dpRecord draws numeric_fields 0 m).1
      (Value.obj [("privacy_protected_data", .obj noisy),
                  ("privacy_metadata", privacyMeta epsilon sensitivity)], 200)

/-! ### Pipeline orchestrator (`combined_query_with_privacy`) -/

/-- The request of the orchestrator; `none` fields model absent keys. -/
structure CombinedInput where
  query_type : Option String
  time_range : TimeRange
  query_filters : Rec
  limit : Option Int
  offset : Option Int
  filters : FilterSpec
  fields_to_redact : Option (List String)
  redaction_character : Option String
  preserve_length : Option Bool
  numeric_fields : Option (List String)
  epsilon : Option ℚ
  sensitivity : Option ℚ

/-- `result.get(k, default)` on a stage result value. -/
def vGetD (v : Value) (k : String) (dflt : Value) : Value :=
  match v with
  | .obj kvs => (pyLookup kvs k).getD dflt
  | _ => dflt

/-- Reads a stage payload back as a list of records.  Inside the pipeline
the stages only ever store lists of record objects under these keys, so
the non-record cases are unreachable. -/
def asRecordList (v : Value) : List Rec :=
  match v with
  | .list xs => xs.filterMap (fun x => match x with | .obj r => some r | _ => none)
  | _ => []

/-- The `query_data` dict built in step 1 of the orchestrator. -/
def combinedQueryData (d : CombinedInput) : QueryInput :=
  { query_type := some (d.query_type.getD "full")
    time_range := d.time_range
    filters := d.query_filters
    limit := some (d.limit.getD 100)
    offset := some (d.offset.getD 0) }

/-- The `filter_data` dict built in step 2 of the orchestrator. -/
def combinedFilterData (d : CombinedInput) (query_result : Value) : FilterInput :=
  { results := asRecordList (vGetD query_result "data" (.list []))
    filters := d.filters }

/-- The `redact_data` dict built in step 3 of the orchestrator.  Note the
`data.get('fields_to_redact', [])` default: the key handed to the
redaction stage is always present. -/
def combinedRedactData (d : CombinedInput) (filtered_result : Value) : RedactInput :=
  { results := asRecordList (vGetD filtered_result "filtered_data" (.list []))
    fields_to_redact := some (d.fields_to_redact.getD [])
    redaction_character := some (d.redaction_character.getD "*")
    preserve_length := some (d.preserve_length.getD true) }

/-- The `privacy_data` dict built in step 4 of the orchestrator. -/
def combinedPrivacyData (d : CombinedInput) (redacted_result : Value) : PrivacyInput :=
  { results := .records (asRecordList (vGetD redacted_result "redacted_data" (.list [])))
    numeric_fields := some (d.numeric_fields.getD [])
    epsilon := some (d.epsilon.getD 1)
    sensitivity := some (d.sensitivity.getD 1) }

/-- The orchestrator's control flow, parametrized by the four stage
functions it calls (the source calls them by name; the parametrization
makes "a later stage is never invoked" expressible as independence from
that stage function). -/
def combinedGeneric (qf : QueryInput → Value × ℕ) (ff : FilterInput → Value × ℕ)
    (rf : RedactInput → Value × ℕ) (pf : PrivacyInput → Value × ℕ)
    (d : CombinedInput) : Value × ℕ :=
  let q := qf (combinedQueryData d)
  if q.2 ≠ 200 then q
  else
    let f := ff (combinedFilterData d q.1)
    if f.2 ≠ 200 then f
    else
      let r := rf (combinedRedactData d f.1)
      if r.2 ≠ 200 then r
      else pf (combinedPrivacyData d r.1)

/-- `combined_query_with_privacy` (src/handlers.py:308). -/
def combined_query_with_privacy (env : Env) (draws : ℕ → ℚ)
    (d : CombinedInput) : Value × ℕ :=
  combinedGeneric (query_archives env) apply_filters redact_names
    (add_differential_privacy draws) d

/-! ### Claim C7: the per-field case analysis of `redact_names` -/

/-- The per-field transformation of the redaction stage as the claim words
it (refinement reference): a redact-listed text field is masked, any other
text field is name-scanned, everything else is copied unchanged. -/
def redactFieldSpec (fields : List String) (rc : String) (pl : Bool)
    (k : String) (v : Value) : Value :=
  match v with
  | .str s =>
    if k ∈ fields then
      if pl then .str (strRepeat rc s.length) else .str "[REDACTED]"
    else .str (nameSub s)
  | _ => v

theorem redactField_eq_spec (fields : List String) (rc : String) (pl : Bool)
    (k : String) (v : Value) :
    redactField fields rc pl k v = redactFieldSpec fields rc pl k v := by
  cases v with
  | str s =>
    by_cases hk : k ∈ fields <;>
      simp [redactField, redactFieldSpec, Value.isStr, Value.strD, hk]
  | _ => simp [redactField, redactFieldSpec, Value.isStr]

/-- C7: in `redact_names`, every field of every record is transformed by
exactly this case analysis: a field listed in `fields_to_redact` whose
value is text is masked (the redaction character repeated to the original
length when `preserve_length`, else the literal `[REDACTED]`); any other
text value has every non-overlapping match of the two-token title-cased
name pattern replaced by `[REDACTED]`; every other value is copied
unchanged, with no recursion into nested structures. -/
theorem redact_names_case_analysis (d : RedactInput) :
    redact_names d =
      (Value.obj [("redacted_data", .list (d.results.map (fun item =>
          Value.obj (item.map (fun kv => (kv.1,
            redactFieldSpec (d.fields_to_redact.getD ["name", "full_name", "username"])
              (d.redaction_character.getD "*") (d.preserve_length.getD true)
              kv.1 kv.2)))))),
        ("count", .int d.results.length)], 200) := by
  simp [redact_names, redactField_eq_spec]

example :
    redact_names
      { results := [[("name", .str "Bob"), ("bio", .str "Met John Smith."),
          ("age", .int 44), ("meta", .obj [("name", .str "Ann Lee")])]]
        fields_to_redact := some ["name"]
        redaction_character := some "*"
        preserve_length := some true } =
    (Value.obj [("redacted_data", .list [.obj [("name", .str "***"),
        ("bio", .str "[REDACTED] Smith."), ("age", .int 44),
        ("meta", .obj [("name", .str "Ann Lee")])]]),
      ("count", .int 1)], 200) := by rfl

example :
    redact_names
      { results := [[("name", .str "Bob")]]
        fields_to_redact := some ["name"]
        redaction_character := some "*"
        preserve_length := some false } =
    (Value.obj [("redacted_data", .list [.obj [("name", .str "[REDACTED]")]]),
      ("count", .int 1)], 200) := by rfl

/-! ### Claim C9: the pipeline suppresses the redaction default list -/

/-- The only transformation left when the effective redact list is empty:
name-scanning of string values (never whole-field masking). -/
def scanOnlyField : Value → Value
  | .str s => .str (nameSub s)
  | v => v

theorem redactField_nil (rc : String) (pl : Bool) (k : String) (v : Value) :
    redactField [] rc pl k v = scanOnlyField v := by
  cases v <;> simp [redactField, scanOnlyField, Value.isStr, Value.strD]

/-- C9: when the orchestrator's request omits `fields_to_redact`, the
redaction stage is handed the explicit empty list — so the stage's own
default `["name", "full_name", "username"]` never applies inside the
pipeline — and the stage performs only pattern-based name scanning of
string fields, no direct whole-field masking. -/
theorem pipeline_redact_scan_only (d : CombinedInput) (fr : Value)
    (h : d.fields_to_redact = none) :
    (combinedRedactData d fr).fields_to_redact = some [] ∧
    redact_names (combinedRedactData d fr) =
      (Value.obj [("redacted_data", .list ((combinedRedactData d fr).results.map
          (fun item => Value.obj (item.map (fun kv => (kv.1, scanOnlyField kv.2)))))),
        ("count", .int (combinedRedactData d fr).results.length)], 200) := by
  constructor
  · simp [combinedRedactData, h]
  · simp [combinedRedactData, h, redact_names, redactField_nil]

/-- An orchestrator request that omits every optional key. -/
def combEmptyReq : CombinedInput :=
  { query_type := none
    time_range := { start := none, stop := none }
    query_filters := []
    limit := none
    offset := none
    filters := { include_fields := [], exclude_fields := [], field_rules := [] }
    fields_to_redact := none
    redaction_character := none
    preserve_length := none
    numeric_fields := none
    epsilon := none
    sensitivity := none }

/-- A filter-stage result carrying a record whose `name` field would be
masked by the redaction stage's default field list. -/
def filteredResW : Value :=
  .obj [("filtered_data", .list [.obj [("name", .str "John Smith"), ("n", .int 7)]]),
        ("count", .int 1)]

/-- C9 witness: with `fields_to_redact` omitted, the `name` field is not
masked to `**********`; it is only transformed by the name-pattern scan
(which here replaces the matching text with the literal marker). -/
theorem pipeline_redact_scan_only_witness :
    (combinedRedactData combEmptyReq filteredResW).fields_to_redact = some [] ∧
    redact_names (combinedRedactData combEmptyReq filteredResW) =
      (Value.obj [("redacted_data",
          .list [.obj [("name", .str "[REDACTED]"), ("n", .int 7)]]),
        ("count", .int 1)], 200) := by
  have h := pipeline_redact_scan_only combEmptyReq filteredResW rfl
  exact ⟨h.1, h.2.trans (by rfl)⟩

/-! ### Claim C6: epsilon validation of the privacy stage -/

/-- C6: a privacy request with `epsilon <= 0` returns exactly status 400
with body `{"error": "Epsilon must be positive"}` (in particular no noised
data is produced); with `epsilon > 0` the validation never fires and the
stage returns status 200. -/
theorem privacy_epsilon_validation (draws : ℕ → ℚ) (d : PrivacyInput) :
    (d.epsilon.getD 1 ≤ 0 →
      add_differential_privacy draws d =
        (Value.obj [("error", .str "Epsilon must be positive")], 400)) ∧
    (0 < d.epsilon.getD 1 → (add_differential_privacy draws d).2 = 200) := by
  constructor
  · intro h
    simp [add_differential_privacy, h]
  · intro h
    have h2 : ¬ d.epsilon.getD 1 ≤ 0 := not_le.mpr h
    cases hres : d.results <;> simp [add_differential_privacy, h2, hres]

/-- C6 witness: `epsilon = 0` is rejected with the 400 error body. -/
theorem privacy_epsilon_validation_witness :
    add_differential_privacy (fun _ => 0)
      { results := .records []
        numeric_fields := none
        epsilon := some 0
        sensitivity := none } =
      (Value.obj [("error", .str "Epsilon must be positive")], 400) :=
  (privacy_epsilon_validation (fun _ => 0)
    { results := .records []
      numeric_fields := none
      epsilon := some 0
      sensitivity := none }).1 (by norm_num)

/-! ### Claim C1: orchestrator short-circuiting -/

/-- C1: if any stage of the pipeline returns a status other than 200, the
orchestrator returns that stage's `(result, status)` pair verbatim, and no
later stage is evaluated — the outcome is independent of the later stage
functions; when query, filter and redaction all return 200, the privacy
stage's pair is returned verbatim. -/
theorem combined_short_circuit
    (qf : QueryInput → Value × ℕ) (ff : FilterInput → Value × ℕ)
    (rf : RedactInput → Value × ℕ) (pf : PrivacyInput → Value × ℕ)
    (d : CombinedInput) :
    (∀ env draws, combined_query_with_privacy env draws d =
      combinedGeneric (query_archives env) apply_filters redact_names
        (add_differential_privacy draws) d) ∧
    (∀ qr, qf (combinedQueryData d) = qr → qr.2 ≠ 200 →
      combinedGeneric qf ff rf pf d = qr) ∧
    (∀ qr fr, qf (combinedQueryData d) = qr → qr.2 = 200 →
      ff (combinedFilterData d qr.1) = fr → fr.2 ≠ 200 →
      combinedGeneric qf ff rf pf d = fr) ∧
    (∀ qr fr rr, qf (combinedQueryData d) = qr → qr.2 = 200 →
      ff (combinedFilterData d qr.1) = fr → fr.2 = 200 →
      rf (combinedRedactData d fr.1) = rr → rr.2 ≠ 200 →
      combinedGeneric qf ff rf pf d = rr) ∧
    (∀ qr fr rr, qf (combinedQueryData d) = qr → qr.2 = 200 →
      ff (combinedFilterData d qr.1) = fr → fr.2 = 200 →
      rf (combinedRedactData d fr.1) = rr → rr.2 = 200 →
      combinedGeneric qf ff rf pf d = pf (combinedPrivacyData d rr.1)) := by
  refine ⟨fun env draws => rfl, ?_, ?_, ?_, ?_⟩
  · rintro qr hq hs
    simp [combinedGeneric, hq, hs]
  · rintro qr fr hq hqs hf hfs
    simp [combinedGeneric, hq, hqs, hf, hfs]
  · rintro qr fr rr hq hqs hf hfs hr hrs
    simp [combinedGeneric, hq, hqs, hf, hfs, hr, hrs]
  · rintro qr fr rr hq hqs hf hfs hr hrs
    simp [combinedGeneric, hq, hqs, hf, hfs, hr, hrs]

/-- A one-day archive whose single record has a string-valued `age`,
making the numeric range rule of `combFilterFailReq` raise a `TypeError`
inside the filter stage. -/
def envFilterFail : Env :=
  { now := 0
    dateOf := fun _ => "2024-01-01"
    store := fun k =>
      if k = "archive:2024-01-01" then
        some [some [("id", .str "a"), ("age", .str "x")]]
      else none }

/-- An orchestrator request whose `field_rules` compare `age` against a
numeric bound. -/
def combFilterFailReq : CombinedInput :=
  { query_type := none
    time_range := { start := some 0, stop := some 0 }
    query_filters := []
    limit := none
    offset := none
    filters :=
      { include_fields := []
        exclude_fields := []
        field_rules := [("age",
          { range := some { min := some (.int 18), max := none }
            regex := none
            mem := none })] }
    fields_to_redact := none
    redaction_character := none
    preserve_length := none
    numeric_fields := none
    epsilon := none
    sensitivity := none }

/-- C1 witness: a filter-stage failure (ill-typed range comparison, status
500) is returned by the orchestrator verbatim. -/
theorem combined_short_circuit_witness :
    combinedGeneric (query_archives envFilterFail) apply_filters redact_names
      (add_differential_privacy (fun _ => 0)) combFilterFailReq =
      (Value.obj [("error", .str typeErrMsg)], 500) :=
  (combined_short_circuit (query_archives envFilterFail) apply_filters
    redact_names (add_differential_privacy (fun _ => 0))
    combFilterFailReq).2.2.1 _ _ rfl rfl rfl (by decide)

/-! ### Claim C5: regex sub-rule semantics -/

theorem reMatch_iff_take (l : List Char) : ∀ r : Regex,
    reMatch r l = true ↔ ∃ n : ℕ, accept r (l.take n) = true := by
  induction l with
  | nil =>
    intro r
    simp [reMatch, accept]
  | cons c t ih =>
    intro r
    simp only [reMatch, Bool.or_eq_true]
    constructor
    · rintro (h | h)
      · exact ⟨0, by simpa [accept] using h⟩
      · obtain ⟨n, hn⟩ := (ih _).1 h
        exact ⟨n + 1, by simpa [accept, List.take_succ_cons] using hn⟩
    · rintro ⟨n, hn⟩
      cases n with
      | zero => exact Or.inl (by simpa [accept] using hn)
      | succ m =>
        exact Or.inr ((ih _).2 ⟨m, by simpa [accept, List.take_succ_cons] using hn⟩)

/-- C5: in `apply_filters`, a regex sub-rule (evaluated on its own rules
object) passes exactly when some initial segment of the stringified field
value belongs to the pattern's language: the match is anchored at position
0, and a match covering only part of the string suffices. -/
theorem regex_rule_anchored (r : Regex) (fv : Value) :
    checkRules fv { range := none, regex := some r, mem := none } =
      some (reMatchStr r (pyStr fv)) ∧
    (reMatchStr r (pyStr fv) = true ↔
      ∃ n : ℕ, accept r ((pyStr fv).toList.take n) = true) := by
  constructor
  · cases hb : reMatchStr r (pyStr fv) <;>
      simp [checkRules, checkRegexRule, checkMem, andThen, hb]
  · exact reMatch_iff_take (pyStr fv).toList r

/-- The pattern `ab`, for the concrete demonstrations below. -/
def rAB : Regex := .cat (.cls (fun c => c = 'a')) (.cls (fun c => c = 'b'))

example : reMatchStr rAB "abc" = true ∧ accept rAB "abc".toList = false := by decide
example : reMatchStr rAB "xab" = false := by decide
example : checkRules (.str "abc") { range := none, regex := some rAB, mem := none } =
    some true := by decide

/-! ### Claim C10: count/summary queries starve the pipeline -/

/-- C10: when the orchestrator request's `query_type` is `"count"` or
`"summary"`, the query stage's result has no `"data"` key, the filter
stage is fed an empty record list, and every successful pipeline
invocation returns `privacy_protected_data = []` with `count = 0`,
no matter how many records matched the query. -/
theorem pipeline_count_summary_empty (env : Env) (draws : ℕ → ℚ)
    (d : CombinedInput)
    (hq : d.query_type = some "count" ∨ d.query_type = some "summary")
    (he : 0 < d.epsilon.getD 1) :
    (∀ kvs, (query_archives env (combinedQueryData d)).1 = .obj kvs →
      pyLookup kvs "data" = none) ∧
    (combinedFilterData d (query_archives env (combinedQueryData d)).1).results = [] ∧
    combined_query_with_privacy env draws d =
      (Value.obj [("privacy_protected_data", .list []),
        ("count", .int 0),
        ("privacy_metadata", privacyMeta (d.epsilon.getD 1) (d.sensitivity.getD 1))], 200) := by
  have h2 : ¬ d.epsilon.getD 1 ≤ 0 := not_le.mpr he
  refine ⟨?_, ?_, ?_⟩
  · intro kvs hkvs
    rcases hq with hq | hq <;>
      simp [query_archives, combinedQueryData, hq] at hkvs <;>
      simp [← hkvs, pyLookup]
  · rcases hq with hq | hq <;>
      simp [combinedFilterData, combinedQueryData, query_archives, hq,
        vGetD, pyLookup, asRecordList]
  · rcases hq with hq | hq <;>
      simp [combined_query_with_privacy, combinedGeneric, combinedQueryData,
        query_archives, hq, combinedFilterData, vGetD, pyLookup, asRecordList,
        apply_filters, checkAll, projectItem, combinedRedactData, redact_names,
        combinedPrivacyData, add_differential_privacy, h2, dpRecords]

/-- A count-shaped orchestrator request over the one-record archive. -/
def combCountReq : CombinedInput :=
  { query_type := some "count"
    time_range := { start := some 0, stop := some 0 }
    query_filters := []
    limit := none
    offset := none
    filters := { include_fields := [], exclude_fields := [], field_rules := [] }
    fields_to_redact := none
    redaction_character := none
    preserve_length := none
    numeric_fields := none
    epsilon := none
    sensitivity := none }

/-- C10 witness: the archive holds a matching record, yet the count-shaped
pipeline run returns an empty protected payload with count 0. -/
theorem pipeline_count_summary_empty_witness :
    (combinedFilterData combCountReq
      (query_archives envFilterFail (combinedQueryData combCountReq)).1).results = [] ∧
    combined_query_with_privacy envFilterFail (fun _ => 0) combCountReq =
      (Value.obj [("privacy_protected_data", .list []),
        ("count", .int 0),
        ("privacy_metadata", privacyMeta 1 1)], 200) :=
  (pipeline_count_summary_empty envFilterFail (fun _ => 0) combCountReq
    (Or.inl rfl) (by norm_num [combCountReq])).2

/-! ### Claim C4: the filter stage is a short-circuiting conjunction -/

theorem andThen_eq_true (x : Option Bool) (k : Unit → Option Bool) :
    andThen x k = some true ↔ x = some true ∧ k () = some true := by
  cases x with
  | none => simp [andThen]
  | some b => cases b <;> simp [andThen]

/-- The claim's reading of one field rule: every configured sub-rule
passes cleanly (range bounds compare `False`, the regex matches at
position 0, the value is a member of the `in` list). -/
def rulesPassSpec (fv : Value) (r : Rules) : Prop :=
  (∀ rr, r.range = some rr →
    (∀ mn, rr.min = some mn → pyLt fv mn = some false) ∧
    (∀ mx, rr.max = some mx → pyGt fv mx = some false)) ∧
  (∀ re, r.regex = some re → reMatchStr re (pyStr fv) = true) ∧
  (∀ vs, r.mem = some vs → vs.any (fun v => pyEq fv v) = true)

theorem checkMin_eq_true (fv : Value) (mno : Option Value) :
    checkMin fv mno = some true ↔
      ∀ mn, mno = some mn → pyLt fv mn = some false := by
  cases mno with
  | none => simp [checkMin]
  | some mn =>
    cases h : pyLt fv mn with
    | none => simp [checkMin, h]
    | some b => cases b <;> simp [checkMin, h]

theorem checkMax_eq_true (fv : Value) (mxo : Option Value) :
    checkMax fv mxo = some true ↔
      ∀ mx, mxo = some mx → pyGt fv mx = some false := by
  cases mxo with
  | none => simp [checkMax]
  | some mx =>
    cases h : pyGt fv mx with
    | none => simp [checkMax, h]
    | some b => cases b <;> simp [checkMax, h]

theorem checkRange_eq_true (fv : Value) (rr : RangeRule) :
    checkRange fv rr = some true ↔
      (∀ mn, rr.min = some mn → pyLt fv mn = some false) ∧
      (∀ mx, rr.max = some mx → pyGt fv mx = some false) := by
  rw [checkRange, andThen_eq_true, checkMin_eq_true, checkMax_eq_true]

theorem checkRules_eq_true (fv : Value) (r : Rules) :
    checkRules fv r = some true ↔ rulesPassSpec fv r := by
  obtain ⟨ro, reo, mo⟩ := r
  unfold checkRules rulesPassSpec
  rw [andThen_eq_true, andThen_eq_true]
  have hrange : (match ro with
      | none => some true
      | some rr => checkRange fv rr) = some true ↔
      (∀ rr, ro = some rr →
        (∀ mn, rr.min = some mn → pyLt fv mn = some false) ∧
        (∀ mx, rr.max = some mx → pyGt fv mx = some false)) := by
    cases ro with
    | none => simp
    | some rr => simp [checkRange_eq_true]
  have hre : checkRegexRule fv reo = some true ↔
      (∀ re, reo = some re → reMatchStr re (pyStr fv) = true) := by
    cases reo <;> simp [checkRegexRule]
  have hmem : checkMem fv mo = some true ↔
      (∀ vs, mo = some vs → vs.any (fun v => pyEq fv v) = true) := by
    cases mo <;> simp [checkMem]
  rw [hrange, hre, hmem]

/-- The claim's conjunction over all ruled fields: every ruled field is
present and all of its configured sub-rules pass. -/
def recordPassSpec (item : Rec) (frs : List (String × Rules)) : Prop :=
  ∀ p ∈ frs, ∃ fv, pyLookup item p.1 = some fv ∧ rulesPassSpec fv p.2

theorem recordCheck_eq_true (item : Rec) (frs : List (String × Rules)) :
    recordCheck item frs = some true ↔ recordPassSpec item frs := by
  induction frs with
  | nil => simp [recordCheck, recordPassSpec]
  | cons p t ih =>
    obtain ⟨f, r⟩ := p
    cases hf : pyLookup item f with
    | none => simp [recordCheck, recordPassSpec, hf]
    | some fv =>
      simp [recordCheck, recordPassSpec, hf, andThen_eq_true,
        checkRules_eq_true, ih, recordPassSpec]

theorem checkAll_eq_filter (frs : List (String × Rules)) (rs : List Rec)
    (h : ∀ it ∈ rs, recordCheck it frs ≠ none) :
    checkAll frs rs =
      some (rs.filter (fun it => decide (recordCheck it frs = some true))) := by
  induction rs with
  | nil => simp [checkAll]
  | cons item t ih =>
    have hh : recordCheck item frs ≠ none := h item (by simp)
    have ht := ih (fun it hit => h it (by simp [hit]))
    cases hr : recordCheck item frs with
    | none => exact absurd hr hh
    | some b => cases b <;> simp [checkAll, hr, ht, List.filter_cons]

/-- C4: in `apply_filters`, the `field_rules` mapping is a conjunction:
a record passes the check exactly when every ruled field is present and
every configured sub-rule of it passes; a record missing a ruled field is
dropped at once regardless of the rule or the remaining fields; a
cleanly failing `min` comparison short-circuits the `max` comparison, and
a failing range sub-rule short-circuits the regex and membership
sub-rules (even ones that would raise); and on an exception-free request
`apply_filters` returns exactly the passing records (projected), with
status 200. -/
theorem filter_rules_conjunction (item : Rec) (frs : List (String × Rules)) :
    (recordCheck item frs = some true ↔ recordPassSpec item frs) ∧
    (∀ f r t, pyLookup item f = none →
      recordCheck item ((f, r) :: t) = some false) ∧
    (∀ fv mn mxo, pyLt fv mn = some true →
      checkRange fv { min := some mn, max := mxo } = some false) ∧
    (∀ fv rr ro vso, checkRange fv rr = some false →
      checkRules fv { range := some rr, regex := ro, mem := vso } = some false) ∧
    (∀ d : FilterInput,
      (∀ it ∈ d.results, recordCheck it d.filters.field_rules ≠ none) →
      apply_filters d =
        (Value.obj [("filtered_data", .list ((d.results.filter
            (fun it => decide (recordCheck it d.filters.field_rules = some true))).map
            (fun it => Value.obj (projectItem d.filters it)))),
          ("count", .int (d.results.filter
            (fun it => decide (recordCheck it d.filters.field_rules = some true))).length)],
         200)) := by
  refine ⟨recordCheck_eq_true item frs, ?_, ?_, ?_, ?_⟩
  · intro f r t hf
    simp [recordCheck, hf]
  · intro fv mn mxo h
    simp [checkRange, checkMin, h, andThen]
  · intro fv rr ro vso h
    simp [checkRules, h, andThen]
  · intro d hnone
    unfold apply_filters
    rw [checkAll_eq_filter _ _ hnone]
    simp [List.map_map, Function.comp]

/-- The spec's own filter example: rule `{"age": {"range": {"min": 18}}}`
over `[{"age": 17}, {"age": 18}]`. -/
def filterW : FilterInput :=
  { results := [[("age", .int 17)], [("age", .int 18)]]
    filters :=
      { include_fields := []
        exclude_fields := []
        field_rules := [("age",
          { range := some { min := some (.int 18), max := none }
            regex := none
            mem := none })] } }

/-- C4 witness: the example request keeps exactly the `{"age": 18}`
record. -/
theorem filter_rules_conjunction_witness :
    apply_filters filterW =
      (Value.obj [("filtered_data", .list [.obj [("age", .int 18)]]),
        ("count", .int 1)], 200) := by
  have h := (filter_rules_conjunction [] []).2.2.2.2 filterW (by decide)
  exact h.trans (by rfl)

/-! ### Claim C8: the frame property of the privacy stage -/

theorem dpRecord_frame (draws : ℕ → ℚ) (nf : List String) :
    ∀ (item : Rec) (c i : ℕ) (k : String) (v : Value),
      item[i]? = some (k, v) →
      (nf.contains k = false ∨ isinstNum v = false) →
      ((dpRecord draws nf c item).1)[i]? = some (k, v) := by
  intro item
  induction item with
  | nil =>
    intro c i k v hi _
    simp at hi
  | cons hd t ih =>
    intro c i k v hi hcond
    obtain ⟨k0, v0⟩ := hd
    cases i with
    | zero =>
      simp at hi
      obtain ⟨hk, hv⟩ := hi
      subst hk
      subst hv
      have hcond2 : ¬ (k0 ∈ nf ∧ isinstNum v0 = true) := by
        rcases hcond with h | h
        · have h2 : k0 ∉ nf := by simpa using h
          simp [h2]
        · simp [h]
      simp [dpRecord, hcond2]
    | succ j =>
      simp at hi
      by_cases hmod : k0 ∈ nf ∧ isinstNum v0 = true
      · simpa [dpRecord, hmod] using ih (c + 1) j k v hi hcond
      · simpa [dpRecord, hmod] using ih c j k v hi hcond

theorem dpRecords_frame (draws : ℕ → ℚ) (nf : List String) :
    ∀ (rs : List Rec) (c j : ℕ) (item : Rec) (i : ℕ) (k : String) (v : Value),
      rs[j]? = some item → item[i]? = some (k, v) →
      (nf.contains k = false ∨ isinstNum v = false) →
      ∃ oitem, ((dpRecords draws nf c rs).1)[j]? = some oitem ∧
        oitem[i]? = some (k, v) := by
  intro rs
  induction rs with
  | nil =>
    intro c j item i k v hj
    simp at hj
  | cons hd t ih =>
    intro c j item i k v hj hi hcond
    cases j with
    | zero =>
      simp at hj
      subst hj
      exact ⟨(dpRecord draws nf c hd).1, by simp [dpRecords],
        dpRecord_frame draws nf hd c i k v hi hcond⟩
    | succ j2 =>
      simp at hj
      obtain ⟨oitem, h1, h2⟩ :=
        ih (dpRecord draws nf c hd).2 j2 item i k v hj hi hcond
      exact ⟨oitem, by simpa [dpRecords] using h1, h2⟩

/-- C8 (amended): on a record-list privacy request with a positive
epsilon, the output is exactly the `dpRecords` pass over the input, and
every field that is not listed in `numeric_fields`, as well as every
listed field whose value Python's `isinstance(value, (int, float))`
rejects (strings, nulls, lists, mappings — but booleans count as ints),
is returned unchanged at its position; only listed fields with
number-or-boolean values are modified. -/
theorem privacy_frame (draws : ℕ → ℚ) (d : PrivacyInput) (rs : List Rec)
    (hres : d.results = .records rs) (heps : 0 < d.epsilon.getD 1) :
    add_differential_privacy draws d =
      (Value.obj [("privacy_protected_data",
          .list (((dpRecords draws (d.numeric_fields.getD []) 0 rs).1).map Value.obj)),
        ("count", .int ((dpRecords draws (d.numeric_fields.getD []) 0 rs).1).length),
        ("privacy_metadata", privacyMeta (d.epsilon.getD 1) (d.sensitivity.getD 1))], 200) ∧
    (∀ (nf : List String) (c j : ℕ) (item : Rec) (i : ℕ) (k : String) (v : Value),
      rs[j]? = some item → item[i]? = some (k, v) →
      (nf.contains k = false ∨ isinstNum v = false) →
      ∃ oitem, ((dpRecords draws nf c rs).1)[j]? = some oitem ∧
        oitem[i]? = some (k, v)) := by
  constructor
  · have h2 : ¬ d.epsilon.getD 1 ≤ 0 := not_le.mpr heps
    simp [add_differential_privacy, hres, h2]
  · intro nf c j item i k v hj hi hcond
    exact dpRecords_frame draws nf rs c j item i k v hj hi hcond

/-- C8 counterexample: a listed boolean field is noised — Python's
`isinstance(True, int)` holds, so `True` plus a noise draw of `2.0`
becomes the integer `3`, which is not the original boolean value. -/
theorem privacy_frame_counterexample :
    add_differential_privacy (fun _ => 2)
      { results := .records [[("flag", .bool true)]]
        numeric_fields := some ["flag"]
        epsilon := none
        sensitivity := none } =
      (Value.obj [("privacy_protected_data", .list [.obj [("flag", .int 3)]]),
        ("count", .int 1),
        ("privacy_metadata", privacyMeta 1 1)], 200) ∧
    Value.int 3 ≠ Value.bool true := by
  constructor
  · with_unfolding_all rfl
  · exact fun h => Value.noConfusion h

/-- A record-list privacy request with one unlisted string field and one
listed integer field. -/
def privW : PrivacyInput :=
  { results := .records [[("name", .str "x"), ("n", .int 5)]]
    numeric_fields := some ["n"]
    epsilon := none
    sensitivity := none }

/-- C8 witness: with a noise draw of 1 the listed numeric field moves from
5 to 6 while the unlisted string field passes through unchanged. -/
theorem privacy_frame_witness :
    add_differential_privacy (fun _ => 1) privW =
      (Value.obj [("privacy_protected_data",
          .list [.obj [("name", .str "x"), ("n", .int 6)]]),
        ("count", .int 1),
        ("privacy_metadata", privacyMeta 1 1)], 200) := by
  have h := privacy_frame (fun _ => 1) privW [[("name", .str "x"), ("n", .int 5)]]
    rfl (by norm_num [privW])
  exact h.1.trans (by with_unfolding_all rfl)

/-! ### Claim C3: the equality filter of the query stage -/

/-- The amended equality-filter predicate: Python compares `item.get(k)` —
which is `None` for a missing key — with the filter value under `==`. -/
def matchesFiltersSpec (filters : Rec) (item : Rec) : Prop :=
  ∀ p ∈ filters, pyEq ((pyLookup item p.1).getD Value.null) p.2 = true

/-- C3 (amended): a record is retained by the query stage iff it is a
decodable entry of an existing enumerated partition and, for every
`(key, value)` pair of `equality_filters`, `item.get(key)` — `null` when
the key is missing — is Python-`==`-equal to `value`.  In particular a
record missing a filtered key is rejected unless that filter's value is
itself `null`, in which case `None == None` retains it. -/
theorem query_equality_filter (env : Env) (filters : Rec)
    (start stop : Int) (item : Rec) :
    item ∈ retainedRecords env filters start stop ↔
      (∃ k ∈ queryKeys env start stop, ∃ entries, env.store k = some entries ∧
        some item ∈ entries) ∧ matchesFiltersSpec filters item := by
  unfold retainedRecords matchesFiltersSpec
  rw [List.mem_flatMap]
  constructor
  · rintro ⟨k, hk, hmem⟩
    unfold fetchKey at hmem
    cases hs : env.store k with
    | none =>
      rw [hs] at hmem
      simp at hmem
    | some entries =>
      rw [hs] at hmem
      rw [List.mem_filter] at hmem
      obtain ⟨hin, hpred⟩ := hmem
      rw [List.mem_filterMap] at hin
      obtain ⟨o, ho, hid⟩ := hin
      refine ⟨⟨k, hk, entries, hs, ?_⟩, ?_⟩
      · cases o with
        | none => cases hid
        | some x =>
          obtain rfl : x = item := by simpa using hid
          exact ho
      · intro p hp
        unfold matchesFilters at hpred
        rw [List.all_eq_true] at hpred
        simpa [pyGet] using hpred p hp
  · rintro ⟨⟨k, hk, entries, hs, hin⟩, hspec⟩
    refine ⟨k, hk, ?_⟩
    unfold fetchKey
    rw [hs, List.mem_filter]
    refine ⟨List.mem_filterMap.mpr ⟨some item, hin, rfl⟩, ?_⟩
    unfold matchesFilters
    rw [List.all_eq_true]
    intro p hp
    simpa [pyGet] using hspec p hp

/-- A one-day archive holding a single empty record. -/
def envNull : Env :=
  { now := 0
    dateOf := fun _ => "d"
    store := fun k => if k = "archive:d" then some [some []] else none }

/-- A full query whose equality filter maps `"k"` to `null`. -/
def qNullFilter : QueryInput :=
  { query_type := some "full"
    time_range := { start := some 0, stop := some 0 }
    filters := [("k", Value.null)]
    limit := none
    offset := none }

/-- C3 counterexample: with `equality_filters = {"k": null}`, the empty
record — which does not map the filtered key `"k"` at all — is retained
(`item.get("k") == None` is `True` in Python), contradicting "a record
missing any filtered key is rejected". -/
theorem query_equality_filter_counterexample :
    pyLookup ([] : Rec) "k" = none ∧
    query_archives envNull qNullFilter =
      (Value.obj [("count", .int 1), ("data", .list [Value.obj []])], 200) :=
  ⟨rfl, by rfl⟩

/-! ### Claim C2: the pagination invariant of full queries -/

/-- The retained set of one query request, before pagination. -/
def queryRetained (env : Env) (d : QueryInput) : List Rec :=
  retainedRecords env d.filters (d.time_range.start.getD 0)
    (d.time_range.stop.getD env.now)

/-- The paginated slice `results[offset : offset + limit]` of one query
request. -/
def queryPage (env : Env) (d : QueryInput) : List Rec :=
  pySlice (queryRetained env d) (d.offset.getD 0)
    (d.offset.getD 0 + d.limit.getD 100)

theorem pySlice_length {α : Type} (l : List α) (i lim : ℤ)
    (hi : 0 ≤ i) (hlim : 0 ≤ lim) :
    ((pySlice l i (i + lim)).length : ℤ) =
      min lim (max 0 ((l.length : ℤ) - i)) := by
  unfold pySlice
  have h1 : ¬ i < 0 := not_lt.mpr hi
  have h2 : ¬ i + lim < 0 := by omega
  simp only [h1, h2, if_false, List.length_take, List.length_drop]
  omega

/-- C2 (amended): every `query_type = "full"` request with non-negative
offset and limit succeeds with `count` equal to the size of the full
retained set before pagination and
`len(data) = min(limit, max(0, count - offset))`.  (For a negative offset
or limit, Python's slice semantics break the length equation — see the
counterexample.) -/
theorem query_pagination (env : Env) (d : QueryInput)
    (hq : d.query_type = some "full")
    (hofs : 0 ≤ d.offset.getD 0) (hlim : 0 ≤ d.limit.getD 100) :
    query_archives env d =
      (Value.obj [("count", .int (queryRetained env d).length),
        ("data", .list ((queryPage env d).map Value.obj))], 200) ∧
    ((queryPage env d).length : ℤ) =
      min (d.limit.getD 100)
        (max 0 (((queryRetained env d).length : ℤ) - d.offset.getD 0)) := by
  constructor
  · simp [query_archives, hq, queryRetained, queryPage]
  · exact pySlice_length (queryRetained env d) (d.offset.getD 0)
      (d.limit.getD 100) hofs hlim

/-- A one-day archive with three retained records. -/
def envPag : Env :=
  { now := 0
    dateOf := fun _ => "d"
    store := fun k =>
      if k = "archive:d" then
        some [some [("id", .int 1)], some [("id", .int 2)], some [("id", .int 3)]]
      else none }

/-- A full query with `offset = -1`, `limit = 2`. -/
def qNegOffset : QueryInput :=
  { query_type := some "full"
    time_range := { start := some 0, stop := some 0 }
    filters := []
    limit := some 2
    offset := some (-1) }

/-- C2 counterexample: with `offset = -1` and `limit = 2` over three
retained records, Python slicing yields an empty page (`len(data) = 0`),
while the claimed invariant demands `min(2, max(0, 3 - (-1))) = 2`;
the claim fails for negative pagination parameters. -/
theorem query_pagination_counterexample :
    query_archives envPag qNegOffset =
      (Value.obj [("count", .int 3), ("data", .list [])], 200) ∧
    (0 : ℤ) ≠ min 2 (max 0 ((3 : ℤ) - (-1))) := by
  refine ⟨by rfl, by decide⟩

/-- A full query with `offset = 1`, `limit = 5`. -/
def qPosOffset : QueryInput :=
  { query_type := some "full"
    time_range := { start := some 0, stop := some 0 }
    filters := []
    limit := some 5
    offset := some 1 }

/-- C2 witness: on the three-record archive with `offset = 1`,
`limit = 5`, the count is 3 and the page length satisfies the invariant. -/
theorem query_pagination_witness :
    query_archives envPag qPosOffset =
      (Value.obj [("count", .int (queryRetained envPag qPosOffset).length),
        ("data", .list ((queryPage envPag qPosOffset).map Value.obj))], 200) ∧
    ((queryPage envPag qPosOffset).length : ℤ) =
      min (qPosOffset.limit.getD 100)
        (max 0 (((queryRetained envPag qPosOffset).length : ℤ) -
          qPosOffset.offset.getD 0)) :=
  query_pagination envPag qPosOffset rfl
    (by norm_num [qPosOffset]) (by norm_num [qPosOffset])

example : queryRetained envPag qPosOffset =
    [[("id", .int 1)], [("id", .int 2)], [("id", .int 3)]] := by rfl
example : queryPage envPag qPosOffset = [[("id", .int 2)], [("id", .int 3)]] := by rfl
